import Mathlib

/-!
Verification of the extraction/normalisation/dedup pipeline of the
umn-housing-scraper repository (src/scraper/main.py, src/scraper/umn_listings.py).

The Python code is shallowly embedded: strings are `String`/`List Char`,
Python floats are modelled as `ℚ` (all values reached by the parsers are
short decimals, exactly representable), fallible code returns `Option`,
and the specific regular expressions used by the source are compiled by
hand into executable matchers whose semantics (leftmost match, greediness,
backtracking where it can matter) are argued case by case in comments.
External effects (the HTTP geocoding service, the floating point
trigonometry of `haversine_distance`, Python's `round`, `float()` on
arbitrary strings, and the wall clock) are passed in as explicit
parameters, so every theorem quantifies over their behaviour.
-/

/-! ### Character classes (Python `\s`, `\d`, `\w` over the ASCII inputs the scraper handles) -/

/-- Python `\s` / `str.strip()` whitespace, restricted to ASCII. -/
def isSpaceCh (c : Char) : Bool :=
  c = ' ' || c = '\t' || c = '\n' || c = '\r' || c = Char.ofNat 11 || c = Char.ofNat 12

/-- Python `\d` (ASCII digits). -/
def isDigitCh (c : Char) : Bool := c.isDigit

/-- Python `\w` (ASCII letters, digits, underscore). -/
def isWordCh (c : Char) : Bool := c.isAlphanum || c = '_'

/-- Python `str.strip()`: drop leading and trailing whitespace. -/
def stripWs (s : List Char) : List Char :=
  ((s.dropWhile isSpaceCh).reverse.dropWhile isSpaceCh).reverse

/-- Python `needle in hay` substring containment. -/
def containsSub (n : List Char) : List Char → Bool
  | [] => n.isEmpty
  | c :: cs => n.isPrefixOf (c :: cs) || containsSub n cs

/-- ASCII lowering; models Python `str.lower()` on the ASCII texts the scraper processes. -/
def lowerStr (s : List Char) : List Char := s.map Char.toLower

/-! ### A miniature regex engine for the fixed keyword patterns

`PER_BED_PATTERNS` and `SHARED_BEDROOM_PATTERNS` (main.py lines 267-275) use only
literal characters, `\s+`, `\s*`, `\d+` and an optional literal suffix
`(?:...)?` / `s?`.  `matchToks` is a complete backtracking matcher for those
constructs, so `reSearch` agrees with Python's `re.search` truthiness. -/

inductive RTok where
  | ch (c : Char)
  | wsPlus
  | wsStar
  | digPlus
  | digStar
  | opt (s : List Char)
deriving DecidableEq

def rtokWeight : RTok → Nat
  | .ch _ => 1
  | .wsPlus => 2
  | .wsStar => 1
  | .digPlus => 2
  | .digStar => 1
  | .opt s => s.length + 2

def rtoksWeight (ts : List RTok) : Nat := (ts.map rtokWeight).sum

theorem rtoksWeight_cons (t : RTok) (ts : List RTok) :
    rtoksWeight (t :: ts) = rtokWeight t + rtoksWeight ts := by
  simp [rtoksWeight]

theorem rtoksWeight_lits (o : List Char) (ts : List RTok) :
    rtoksWeight (o.map RTok.ch ++ ts) = o.length + rtoksWeight ts := by
  induction o with
  | nil => simp
  | cons c cs ih => simp [rtoksWeight_cons, ih, rtokWeight]; omega

/-- Match the token list against a prefix of `s` (any amount may remain),
with explicit fuel so that the kernel can evaluate concrete instances.  Every
recursive call strictly decreases `s.length + rtoksWeight ts` (a literal or a
`\s+`/`\d+` head consumes a character; dropping or expanding a token head
lowers the weight), so the fuel supplied by `matchToks` below never runs out
and the `fuel = 0` branch is unreachable. -/
def matchToksF (fuel : Nat) (ts : List RTok) (s : List Char) : Bool :=
  match fuel with
  | 0 => false
  | fuel + 1 =>
    match ts, s with
    | [], _ => true
    | .ch _ :: _, [] => false
    | .ch c :: ts, x :: xs => x = c && matchToksF fuel ts xs
    | .wsStar :: ts, [] => matchToksF fuel ts []
    | .wsStar :: ts, x :: xs =>
        matchToksF fuel ts (x :: xs) || (isSpaceCh x && matchToksF fuel (.wsStar :: ts) xs)
    | .wsPlus :: _, [] => false
    | .wsPlus :: ts, x :: xs => isSpaceCh x && matchToksF fuel (.wsStar :: ts) xs
    | .digStar :: ts, [] => matchToksF fuel ts []
    | .digStar :: ts, x :: xs =>
        matchToksF fuel ts (x :: xs) || (isDigitCh x && matchToksF fuel (.digStar :: ts) xs)
    | .digPlus :: _, [] => false
    | .digPlus :: ts, x :: xs => isDigitCh x && matchToksF fuel (.digStar :: ts) xs
    | .opt o :: ts, s => matchToksF fuel (o.map RTok.ch ++ ts) s || matchToksF fuel ts s

def matchToks (ts : List RTok) (s : List Char) : Bool :=
  matchToksF (s.length + rtoksWeight ts + 1) ts s

/-- Python `re.search` truthiness: a match starting at some position. -/
def reSearch (ts : List RTok) : List Char → Bool
  | [] => matchToks ts []
  | c :: cs => matchToks ts (c :: cs) || reSearch ts cs

def lits (s : String) : List RTok := s.data.map RTok.ch

/-- `PER_BED_PATTERNS` (main.py lines 267-270). -/
def perBedPats : List (List RTok) :=
  [ lits "per" ++ [.wsPlus] ++ lits "bed" ++ [.opt "room".data],
    lits "by" ++ [.wsPlus] ++ lits "the" ++ [.wsPlus] ++ lits "bed",
    [.ch '/', .wsStar] ++ lits "bed" ++ [.opt "room".data],
    lits "individual" ++ [.wsPlus] ++ lits "lease",
    lits "bedroom" ++ [.wsPlus] ++ lits "lease" ]

/-- `SHARED_BEDROOM_PATTERNS` (main.py lines 272-275). -/
def sharedBedroomPats : List (List RTok) :=
  [ lits "shared" ++ [.wsPlus] ++ lits "bedroom",
    lits "double" ++ [.wsPlus] ++ lits "occupancy",
    lits "2x" ++ [.wsPlus] ++ lits "occupancy",
    lits "roommate" ++ [.wsPlus] ++ lits "matching",
    [.digPlus, .wsPlus] ++ lits "bed" ++ [.opt "s".data, .wsPlus] ++ lits "per" ++ [.wsPlus] ++ lits "room" ]

/-! ### Extraction of currency numbers

Python: `re.findall(r'\$?\s*(\d{1,3}(?:,\d{3})*(?:\.\d{2})?)', price_text)`
(main.py line 663).  Once `\d{1,3}` has consumed greedily the remaining parts of
the pattern are all optional, so no backtracking can change the outcome and a
purely greedy matcher is exact.  `findall` returns the capture groups of the
non-overlapping leftmost matches; scanning resumes at each match end, which
coincides with the group end. -/

/-- Greedy `(?:,\d{3})*`: returns (consumed, rest). -/
def commaGroups : List Char → List Char × List Char
  | ',' :: a :: b :: c :: r =>
    if isDigitCh a && isDigitCh b && isDigitCh c then
      let (g, r2) := commaGroups r
      (',' :: a :: b :: c :: g, r2)
    else ([], ',' :: a :: b :: c :: r)
  | s => ([], s)

/-- Greedy `(?:\.\d{2})?`: returns (consumed, rest). -/
def dec2 : List Char → List Char × List Char
  | '.' :: a :: b :: r =>
    if isDigitCh a && isDigitCh b then (['.', a, b], r) else ([], '.' :: a :: b :: r)
  | s => ([], s)

/-- Try the money pattern at the current position; `some (group, rest)` on success. -/
def tryMoneyAt (s : List Char) : Option (List Char × List Char) :=
  let s1 := match s with
    | '$' :: r => r
    | _ => s
  let s2 := s1.dropWhile isSpaceCh
  let d := (s2.takeWhile isDigitCh).take 3
  if d.isEmpty then none
  else
    let c := commaGroups (s2.drop d.length)
    let e := dec2 c.2
    some (d ++ c.1 ++ e.1, e.2)

theorem dropWhileLenLe (p : Char → Bool) (l : List Char) :
    (l.dropWhile p).length ≤ l.length := by
  induction l with
  | nil => simp
  | cons c cs ih => simp only [List.dropWhile]; split <;> simp <;> omega

theorem takeWhileLenLe (p : Char → Bool) (l : List Char) :
    (l.takeWhile p).length ≤ l.length := by
  induction l with
  | nil => simp
  | cons c cs ih => simp only [List.takeWhile]; split <;> simp <;> omega

theorem commaGroupsRestLe (s : List Char) : (commaGroups s).2.length ≤ s.length := by
  induction s using commaGroups.induct with
  | case1 a b c r hd g r2 h ih =>
    rw [commaGroups]
    simp only [hd, if_pos]
    rw [h] at ih
    simp only [h]
    simp at ih ⊢
    omega
  | case2 a b c r hd => rw [commaGroups]; simp [hd]
  | case3 s hs => rw [commaGroups.eq_def]; cases s <;> simp_all

theorem dec2RestLe (s : List Char) : (dec2 s).2.length ≤ s.length := by
  rw [dec2.eq_def]
  cases s with
  | nil => simp
  | cons a r =>
    cases r with
    | nil => split <;> simp_all
    | cons b r2 =>
      cases r2 with
      | nil => split <;> simp_all
      | cons c r3 => split <;> (try split) <;> simp_all <;> omega

theorem tryMoneyAtRestLt (s g rest : List Char)
    (h : tryMoneyAt s = some (g, rest)) : rest.length < s.length := by
  unfold tryMoneyAt at h
  by_cases hde : ((((match s with | '$' :: r => r | _ => s).dropWhile isSpaceCh).takeWhile isDigitCh).take 3).isEmpty
  · simp only [hde] at h
    simp at h
  · simp only [hde] at h
    simp only [Bool.false_eq_true, if_false, Option.some.injEq, Prod.mk.injEq] at h
    obtain ⟨-, hrest⟩ := h
    set s1 := (match s with | '$' :: r => r | _ => s) with hs1
    have hs1le : s1.length ≤ s.length := by
      rw [hs1]
      split
      · simp
      · exact Nat.le_refl _
    set s2 := s1.dropWhile isSpaceCh with hs2
    have hs2le : s2.length ≤ s1.length := dropWhileLenLe _ _
    set d := (s2.takeWhile isDigitCh).take 3 with hd
    have hdpos : 0 < d.length := by
      rcases hcase : d with _ | ⟨x, xs⟩
      · rw [hcase] at hde; simp [List.isEmpty] at hde
      · simp
    have hdle : d.length ≤ s2.length := by
      rw [hd, List.length_take]
      have := takeWhileLenLe isDigitCh s2
      omega
    have hs2pos : 0 < s2.length := Nat.lt_of_lt_of_le hdpos hdle
    have hdrop : (s2.drop d.length).length < s2.length := by
      rw [List.length_drop]; omega
    have h1 := commaGroupsRestLe (s2.drop d.length)
    have h2 := dec2RestLe (commaGroups (s2.drop d.length)).2
    rw [← hrest]
    omega

/-- Convert a string of ASCII digits to a natural number. -/
def digitsToNat (l : List Char) : Nat := l.foldl (fun n c => 10 * n + (c.toNat - 48)) 0

/-- Python `float(group.replace(',', ''))`, on groups produced by the money
pattern: an integer part with optional two decimals, exactly representable in
ℚ (built with `mkRat` so that the kernel can evaluate it). -/
def moneyToQ (g : List Char) : ℚ :=
  let g2 := g.filter (fun c => c ≠ ',')
  let ip := g2.takeWhile isDigitCh
  match g2.drop ip.length with
  | '.' :: f => mkRat (digitsToNat ip * 10 ^ f.length + digitsToNat f) (10 ^ f.length)
  | _ => (digitsToNat ip : ℚ)

/-- `re.findall` of the money pattern: capture groups of successive leftmost
non-overlapping matches, converted to numbers (main.py lines 663-664).  Fueled
for kernel evaluation: by `tryMoneyAtRestLt` a successful match consumes at
least one character and a failure advances by one, so `s.length + 1` units of
fuel always reach the base case. -/
def extractMoneyF (fuel : Nat) (s : List Char) : List ℚ :=
  match fuel with
  | 0 => []
  | fuel + 1 =>
    match tryMoneyAt s with
    | some (g, rest) => moneyToQ g :: extractMoneyF fuel rest
    | none =>
      match s with
      | [] => []
      | _ :: cs => extractMoneyF fuel cs

def extractMoney (s : List Char) : List ℚ := extractMoneyF (s.length + 1) s

/-! ### `parse_price_text` (main.py lines 638-696) -/

/-- The result dictionary of `parse_price_text`. -/
structure PriceInfo where
  rent_min : Option ℚ
  rent_max : Option ℚ
  price_type : String
  is_per_bed : Option Bool
  is_shared_bedroom : Option Bool
deriving DecidableEq, Repr

/-- The three characters of the mojibake en-dash literal on main.py line 675
(the UTF-8 bytes of U+2013 mis-decoded as Latin-1). -/
def enDashMoji : List Char := [Char.ofNat 0xE2, Char.ofNat 0x20AC, Char.ofNat 0x201C]

/-- `parse_price_text(price_text, full_text)` (main.py lines 638-696), a direct
transcription.  Keyword patterns are searched over the lowered combined text;
currency numbers come from the price fragment alone; the first branch of the
min/max decision that fires wins, and a `price_type` set by the per-bed scan is
never overwritten.  Once at least one number was found, the two flags are
defaulted from `None` to `False`. -/
def parse_price_text (price_text : String) (full_text : String) : PriceInfo :=
  let base : PriceInfo :=
    { rent_min := none, rent_max := none, price_type := "unknown",
      is_per_bed := none, is_shared_bedroom := none }
  if price_text = "" then base
  else
    let combined := lowerStr ((price_text ++ " " ++ full_text).data)
    let r1 :=
      if perBedPats.any (fun p => reSearch p combined) then
        { base with is_per_bed := some true, price_type := "per_bed" }
      else base
    let r2 :=
      if sharedBedroomPats.any (fun p => reSearch p combined) then
        { r1 with is_shared_bedroom := some true }
      else r1
    match extractMoney price_text.data with
    | [] => r2
    | n0 :: rest =>
      let textLower := lowerStr price_text.data
      let hasSep := price_text.data.contains '-' || containsSub enDashMoji price_text.data
        || containsSub "to".data textLower
      let r3 :=
        if containsSub "from".data textLower then
          { r2 with
            rent_min := some n0
            rent_max := some n0
            price_type := if r2.price_type = "unknown" then "from_price" else r2.price_type }
        else
          match rest, hasSep with
          | [n1], true =>
            { r2 with
              rent_min := some n0
              rent_max := some n1
              price_type := if r2.price_type = "unknown" then "range" else r2.price_type }
          | [], _ =>
            { r2 with
              rent_min := some n0
              rent_max := some n0
              price_type := if r2.price_type = "unknown" then "per_unit" else r2.price_type }
          | _, _ =>
            { r2 with
              rent_min := some ((n0 :: rest).foldl min n0)
              rent_max := some ((n0 :: rest).foldl max n0)
              price_type := if r2.price_type = "unknown" then "range" else r2.price_type }
      { r3 with
        is_per_bed := some (r3.is_per_bed.getD false)
        is_shared_bedroom := some (r3.is_shared_bedroom.getD false) }

/-! ### Scalar field parsers (main.py lines 699-727)

Each is a leftmost-scan for its regex.  In all of them the leading `\d+` (or
`\d{1,3}(?:,\d{3})*`) is followed by material that can never match a digit, so
a failed greedy attempt at a position cannot be rescued by backtracking and the
scan simply advances one character — exactly `re.search` semantics. -/

/-- Python `float` of a `\d+(?:\.\d+)?` capture (exact, kernel-evaluable). -/
def decCaptureToQ (d f : List Char) : ℚ :=
  if f.isEmpty then (digitsToNat d : ℚ)
  else mkRat (digitsToNat d * 10 ^ f.length + digitsToNat f) (10 ^ f.length)

/-- Try `(\d+(?:\.\d+)?)\s*(?:kw₁|kw₂|...)` at the current position; returns the
captured number. -/
def tryNumKwAt (alts : List (List Char)) (s : List Char) : Option ℚ :=
  let d := s.takeWhile isDigitCh
  if d.isEmpty then none
  else
    let r1 := s.drop d.length
    let f := match r1 with
      | '.' :: t => let f0 := t.takeWhile isDigitCh
                    if f0.isEmpty then [] else f0
      | _ => []
    let r2 := if f.isEmpty then r1 else r1.drop (f.length + 1)
    let r3 := r2.dropWhile isSpaceCh
    if alts.any (fun a => a.isPrefixOf r3) then some (decCaptureToQ d f) else none

/-- Leftmost search with `tryNumKwAt`. -/
def searchNumKw (alts : List (List Char)) : List Char → Option ℚ
  | [] => none
  | c :: cs =>
    match tryNumKwAt alts (c :: cs) with
    | some q => some q
    | none => searchNumKw alts cs

/-- `parse_bedroom_count` (main.py lines 699-708): "studio" means 0.0, else a
number before "bed"/"br", else `None`. -/
def parse_bedroom_count (text : String) : Option ℚ :=
  if text = "" then none
  else
    let t := stripWs (lowerStr text.data)
    if containsSub "studio".data t then some 0
    else searchNumKw ["bed".data, "br".data] t

/-- `parse_bathroom_count` (main.py lines 711-715). -/
def parse_bathroom_count (text : String) : Option ℚ :=
  if text = "" then none
  else searchNumKw ["bath".data, "ba".data] (lowerStr text.data)

/-- Try `(\d{1,3}(?:,\d{3})*)\s*(?:sq\.?\s*ft|sqft|sf)` at the current position
(on lowered text; the original call passes `re.IGNORECASE`). -/
def trySqftAt (s : List Char) : Option ℤ :=
  let d := (s.takeWhile isDigitCh).take 3
  if d.isEmpty then none
  else
    let r1 := s.drop d.length
    let c := commaGroups r1
    let r3 := c.2.dropWhile isSpaceCh
    let kwOk :=
      (match r3 with
        | 's' :: 'q' :: r4 =>
          let r5 := match r4 with
            | '.' :: t => t
            | _ => r4
          "ft".data.isPrefixOf (r5.dropWhile isSpaceCh)
        | _ => false)
      || "sf".data.isPrefixOf r3
    if kwOk then some (digitsToNat ((d ++ c.1).filter (fun ch => ch ≠ ',')) : ℤ) else none

/-- Leftmost search for the square-footage pattern. -/
def searchSqft : List Char → Option ℤ
  | [] => none
  | c :: cs =>
    match trySqftAt (c :: cs) with
    | some n => some n
    | none => searchSqft cs

/-- `parse_sqft` (main.py lines 718-722). -/
def parse_sqft (text : String) : Option ℤ :=
  if text = "" then none
  else searchSqft (lowerStr text.data)

/-- `check_amenity` (main.py lines 725-727): case-insensitive substring match of
any keyword against the text blob (the caller passes an already-lowered blob). -/
def check_amenity (amenity_text : String) (keywords : List String) : Bool :=
  keywords.any (fun k => containsSub (lowerStr k.data) (lowerStr amenity_text.data))

/-! ### The rent fragment regex of `parse_unit_row`

Python: `re.search(r'\$[\d,]+(?:\s*-\s*\$[\d,]+)?', row_text)` (main.py line
1204); the matched text itself becomes `rent_raw`. -/

def isDigitComma (c : Char) : Bool := isDigitCh c || c = ','

/-- Try the rent pattern at the current position; returns group(0). -/
def tryRentAt (s : List Char) : Option (List Char) :=
  match s with
  | '$' :: r1 =>
    let d := r1.takeWhile isDigitComma
    if d.isEmpty then none
    else
      let r2 := r1.drop d.length
      let ws1 := r2.takeWhile isSpaceCh
      let r3 := r2.drop ws1.length
      match r3 with
      | '-' :: r4 =>
        let ws2 := r4.takeWhile isSpaceCh
        let r5 := r4.drop ws2.length
        (match r5 with
         | '$' :: r6 =>
           let e := r6.takeWhile isDigitComma
           if e.isEmpty then some ('$' :: d)
           else some ('$' :: d ++ ws1 ++ '-' :: ws2 ++ '$' :: e)
         | _ => some ('$' :: d))
      | _ => some ('$' :: d)
  | _ => none

/-- Leftmost search for the rent pattern. -/
def searchRent : List Char → Option (List Char)
  | [] => none
  | c :: cs =>
    match tryRentAt (c :: cs) with
    | some m => some m
    | none => searchRent cs

/-! ### The `UnitListing` record (main.py lines 297-343)

Python floats are `Option ℚ`, ints `Option ℤ`, booleans `Option Bool`
(`None` = not evaluated).  `scrape_date` is a string filled from the clock,
which is passed in explicitly where records are constructed. -/

structure UnitListing where
  listing_id : String
  building_name : String
  full_address : String
  street : String := ""
  city : String := ""
  state : String := ""
  zip : String := ""
  lat : Option ℚ := none
  lon : Option ℚ := none
  dist_to_campus_km : Option ℚ := none
  unit_label : String := ""
  beds : Option ℚ := none
  baths : Option ℚ := none
  sqft : Option ℤ := none
  rent_raw : String := ""
  rent_min : Option ℚ := none
  rent_max : Option ℚ := none
  price_type : String := "unknown"
  is_per_bed : Option Bool := none
  is_shared_bedroom : Option Bool := none
  year_built : Option ℤ := none
  num_units : Option ℤ := none
  building_type : String := ""
  stories : Option ℤ := none
  has_in_unit_laundry : Option Bool := none
  has_on_site_laundry : Option Bool := none
  has_dishwasher : Option Bool := none
  has_ac : Option Bool := none
  has_heat_included : Option Bool := none
  has_water_included : Option Bool := none
  has_internet_included : Option Bool := none
  is_furnished : Option Bool := none
  has_gym : Option Bool := none
  has_pool : Option Bool := none
  has_rooftop_or_clubroom : Option Bool := none
  has_parking_available : Option Bool := none
  has_garage : Option Bool := none
  pets_allowed : Option Bool := none
  is_student_branded : Option Bool := none
  scrape_date : String := ""
  source_url : String := ""
deriving DecidableEq, Repr

instance : Inhabited UnitListing :=
  ⟨{ listing_id := "", building_name := "", full_address := "" }⟩

/-- The amenity dictionary produced by `extract_amenities` (main.py 1119-1156). -/
structure AmenityFlags where
  has_in_unit_laundry : Option Bool := none
  has_on_site_laundry : Option Bool := none
  has_dishwasher : Option Bool := none
  has_ac : Option Bool := none
  has_heat_included : Option Bool := none
  has_water_included : Option Bool := none
  has_internet_included : Option Bool := none
  is_furnished : Option Bool := none
  has_gym : Option Bool := none
  has_pool : Option Bool := none
  has_rooftop_or_clubroom : Option Bool := none
  has_parking_available : Option Bool := none
  has_garage : Option Bool := none
  pets_allowed : Option Bool := none
deriving DecidableEq, Repr

/-- The `building_data` dictionary assembled by `extract_building_info`
(main.py lines 954-1116); only the fields read by `parse_unit_row` are kept. -/
structure BuildingData where
  source_url : String
  building_name : String := ""
  full_address : String := ""
  street : String := ""
  city : String := ""
  state : String := ""
  zip : String := ""
  lat : Option ℚ := none
  lon : Option ℚ := none
  amenities : AmenityFlags := {}
  is_student_branded : Bool := false
  full_page_text : String := ""
deriving DecidableEq, Repr

/-- The `setattr` loop at the end of `parse_unit_row` (main.py lines 1231-1232). -/
def applyAmenities (a : AmenityFlags) (u : UnitListing) : UnitListing :=
  { u with
    has_in_unit_laundry := a.has_in_unit_laundry
    has_on_site_laundry := a.has_on_site_laundry
    has_dishwasher := a.has_dishwasher
    has_ac := a.has_ac
    has_heat_included := a.has_heat_included
    has_water_included := a.has_water_included
    has_internet_included := a.has_internet_included
    is_furnished := a.is_furnished
    has_gym := a.has_gym
    has_pool := a.has_pool
    has_rooftop_or_clubroom := a.has_rooftop_or_clubroom
    has_parking_available := a.has_parking_available
    has_garage := a.has_garage
    pets_allowed := a.pets_allowed }

/-! ### Python string formatting needed by `listing_id` -/

/-- Python `str.split(sep)` for a single separator character: splits at every
occurrence and keeps empty segments. -/
def splitOnChar (sep : Char) : List Char → List (List Char)
  | [] => [[]]
  | c :: cs =>
    match splitOnChar sep cs with
    | [] => [[]]
    | h :: t => if c = sep then [] :: h :: t else (c :: h) :: t

/-- Decimal digits of a natural number. -/
def natChars (n : Nat) : List Char := (toString n).data

/-- Python `repr`/f-string rendering of a non-negative float that holds a short
decimal value (every float produced by `parse_bedroom_count` is one): the
shortest round-tripping decimal, i.e. the exact decimal expansion, with a
mandatory ".0" for integral values. -/
def formatPyFloat (q : ℚ) : List Char :=
  if q.den = 1 then natChars q.num.natAbs ++ ".0".data
  else
    match (List.range 17).find? (fun k => ((10 : Nat) ^ (k + 1)) % q.den = 0) with
    | some k =>
      let m := k + 1
      let scaled := q.num.natAbs * 10 ^ m / q.den
      let digs := natChars scaled
      let pad := List.replicate (m + 1 - digs.length) '0' ++ digs
      pad.take (pad.length - m) ++ '.' :: pad.drop (pad.length - m)
    | none => natChars q.num.natAbs

/-- The f-string `f"{beds or 0}"` inside the `listing_id` construction
(main.py line 1211): `None` and `0.0` are both falsy, so both render as the
int literal "0"; any other parsed bed count renders as a float. -/
def renderBedsOr0 (beds : Option ℚ) : List Char :=
  match beds with
  | none => ['0']
  | some q => if q = 0 then ['0'] else formatPyFloat q

/-- `parse_unit_row` (main.py lines 1197-1236).  `now` models the
`datetime.now().isoformat()` default of `scrape_date`.  A row without a
parseable rent (or whose rent text contains "call") is rejected; a source URL
with fewer than two `/`-separated parts would raise `IndexError`, caught by the
enclosing `except` which returns `None`. -/
def parse_unit_row (row_text : String) (bd : BuildingData) (now : String) :
    Option UnitListing :=
  let beds := parse_bedroom_count row_text
  let baths := parse_bathroom_count row_text
  let sqft := parse_sqft row_text
  let rent_raw : String := ⟨(searchRent row_text.data).getD []⟩
  if rent_raw = "" || containsSub "call".data (lowerStr rent_raw.data) then none
  else
    let parts := splitOnChar '/' bd.source_url.data
    match parts.reverse.drop 1 with
    | [] => none
    | slug :: _ =>
      let price_info := parse_price_text rent_raw bd.full_page_text
      some (applyAmenities bd.amenities
        { listing_id := ⟨slug ++ '-' :: renderBedsOr0 beds ++ "bed".data⟩
          building_name := bd.building_name
          full_address := bd.full_address
          street := bd.street
          city := bd.city
          state := bd.state
          zip := bd.zip
          lat := bd.lat
          lon := bd.lon
          beds := beds
          baths := baths
          sqft := sqft
          rent_raw := rent_raw
          rent_min := price_info.rent_min
          rent_max := price_info.rent_max
          price_type := price_info.price_type
          is_per_bed := price_info.is_per_bed
          is_student_branded := some bd.is_student_branded
          scrape_date := now
          source_url := bd.source_url })

/-! ### `sample_units` (main.py lines 1239-1262) -/

/-- The key `lambda u: (u.sqft is not None, u.sqft or 0)` of the two `max` calls. -/
def sqftKey (u : UnitListing) : Bool × ℤ := (u.sqft.isSome, u.sqft.getD 0)

/-- Strict lexicographic "greater" on the `max` key (False < True on booleans). -/
def sqftKeyGt (u v : UnitListing) : Bool :=
  let a := sqftKey u
  let b := sqftKey v
  (a.1 && !b.1) || (a.1 == b.1 && decide (b.2 < a.2))

/-- Python `max(l, key=...)`: the first element with maximal key (a later
element replaces the current best only when strictly greater). -/
def firstMaxBy : List UnitListing → Option UnitListing
  | [] => none
  | u :: rest => some (rest.foldl (fun best v => if sqftKeyGt v best then v else best) u)

/-- The sort key `lambda u: (u.sqft is not None, u.beds or 0, u.sqft or 0)`
compared lexicographically, as a non-strict `≤` (Python's stable ascending
sort and a stable insertion sort on this total preorder give the same list). -/
def fillKeyLe (u v : UnitListing) : Bool :=
  let a : Bool × ℚ × ℤ := (u.sqft.isSome, u.beds.getD 0, u.sqft.getD 0)
  let b : Bool × ℚ × ℤ := (v.sqft.isSome, v.beds.getD 0, v.sqft.getD 0)
  (!a.1 && b.1) || (a.1 == b.1 &&
    (decide (a.2.1 < b.2.1) || (a.2.1 == b.2.1 && decide (a.2.2 ≤ b.2.2))))

/-- The fill loop of `sample_units`: append sorted candidates not already
selected, stopping as soon as 2 are selected. -/
def fillLoop (sel : List UnitListing) : List UnitListing → List UnitListing
  | [] => sel
  | u :: rest =>
    if sel.contains u then fillLoop sel rest
    else
      let sel2 := sel ++ [u]
      if 2 ≤ sel2.length then sel2 else fillLoop sel2 rest

/-- The `selected` list after the two best-unit picks: the largest-sqft
rent-bearing 1-bed (when one exists) then the largest-sqft rent-bearing 2-bed
(when one exists).  `by_beds` only receives units with
`beds is not None and rent_min is not None`, so membership of `1.0`/`2.0` in it
is membership in the corresponding filter. -/
def selectedOf (units : List UnitListing) : List UnitListing :=
  (match firstMaxBy (units.filter (fun u => u.beds == some 1 && u.rent_min.isSome)) with
    | some u => [u]
    | none => []) ++
  (match firstMaxBy (units.filter (fun u => u.beds == some 2 && u.rent_min.isSome)) with
    | some u => [u]
    | none => [])

/-- The body of `sample_units` past the empty-input early return. -/
def sampleUnitsCore (units : List UnitListing) : List UnitListing :=
  let selected := selectedOf units
  (if selected.length < 2 then
    fillLoop selected
      (List.insertionSort (fun a b => fillKeyLe a b = true)
        (units.filter (fun u => !(selected.contains u) && u.rent_min.isSome)))
  else selected).take 2

/-- `sample_units` (main.py lines 1239-1262): best (largest-sqft) 1-bed and
2-bed among rent-bearing units, topped up to 2 from the remaining rent-bearing
units sorted by `(has-sqft, beds, sqft)`. -/
def sample_units (units : List UnitListing) : List UnitListing :=
  match units with
  | [] => []
  | _ => sampleUnitsCore units

/-! ### Dedup & merge (main.py lines 489-512, umn_listings.py lines 1181-1195)

The persisted accumulated store is a Python dict keyed by `listing_id`
(insertion-ordered, keys unique); it is modelled as an association list.  The
final loop of `merge_and_dedupe_units` converts every stored dict back into a
`UnitListing`; on the typed records of this embedding that round-trip
(`asdict` / field filtering / reconstruction) is the identity, so the function
returns the values of the merged store in order. -/

/-- Listing store: insertion-ordered association list, as a Python dict. -/
def lookupId (id : String) : List (String × UnitListing) → Option UnitListing
  | [] => none
  | (k, v) :: rest => if k = id then some v else lookupId id rest

/-- The merge loop shared by `merge_and_dedupe_units` (main.py 491-496) and
`merge_and_export` (umn_listings.py 1184-1186): start from the existing store
and add each new unit only if its id is not yet a key. -/
def merge_store (new_units : List UnitListing) (existing : List (String × UnitListing)) :
    List (String × UnitListing) :=
  new_units.foldl
    (fun m u => if (lookupId u.listing_id m).isSome then m else m ++ [(u.listing_id, u)])
    existing

/-- `merge_and_dedupe_units` (main.py lines 489-512): the merged store's values. -/
def merge_and_dedupe_units (new_units : List UnitListing)
    (existing : List (String × UnitListing)) : List UnitListing :=
  (merge_store new_units existing).map Prod.snd

/-! ### `geocode_address` (main.py lines 541-636)

The external Nominatim service (HTTP, per-variant 5xx retry, mandatory delay)
is abstracted to `svc : String → Option (ℚ × ℚ)`: its value at a query is the
result the retry loop for that variant would eventually produce (`none` for an
empty result as well as for any failure).  What remains — variant generation
order, exact-string deduplication via the `attempted` set, first-success return
and `None` on exhaustion — is embedded directly. -/

/-- `re.sub(r'^\s*(\d+)-\d+(\s+)', r'\1\2', addr)` (main.py line 561): collapse
a leading house-number range to its first endpoint.  All quantifiers are
followed by material disjoint from their character class, so greedy matching is
exact; the pattern is anchored, so at most one substitution happens. -/
def subLeadingRange (s : List Char) : List Char :=
  let t1 := s.dropWhile isSpaceCh
  let d1 := t1.takeWhile isDigitCh
  if d1.isEmpty then s
  else
    match t1.drop d1.length with
    | '-' :: t2 =>
      let d2 := t2.takeWhile isDigitCh
      if d2.isEmpty then s
      else
        let t3 := t2.drop d2.length
        let ws2 := t3.takeWhile isSpaceCh
        if ws2.isEmpty then s else d1 ++ ws2 ++ t3.drop ws2.length
    | _ => s

/-- `re.sub(r'\b(\d+)-\d+\b', r'\1', addr)` (main.py line 566): collapse every
word-bounded digit range anywhere; scans left to right with the previous
character's word-ness tracked.  Backtracking inside a digit run can never
create a word boundary, so the greedy scan is exact. -/
def goRangesF (fuel : Nat) (prevWord : Bool) (s : List Char) : List Char :=
  match fuel with
  | 0 => s
  | fuel + 1 =>
    match s with
    | [] => []
    | c :: cs =>
      if !prevWord && isDigitCh c then
        let t := cs.takeWhile isDigitCh
        match cs.drop t.length with
        | '-' :: r2 =>
          let d2 := r2.takeWhile isDigitCh
          let r3 := r2.drop d2.length
          if !d2.isEmpty && (match r3 with
              | [] => true
              | x :: _ => !isWordCh x) then
            (c :: t) ++ goRangesF fuel true r3
          else c :: goRangesF fuel (isWordCh c) cs
        | _ => c :: goRangesF fuel (isWordCh c) cs
      else c :: goRangesF fuel (isWordCh c) cs

/-- Fueled for kernel evaluation; every recursive call of `goRangesF` is on a
strictly shorter list (`r3` is a strict suffix of `cs`), so `s.length + 1`
units of fuel always reach the base case. -/
def subAllRanges (s : List Char) : List Char := goRangesF (s.length + 1) false s

/-- `re.sub(r'\([^)]*\)', '', addr)` (main.py line 577): delete every
parenthesised group (`[^)]*` stops at the first `)`, so this is exact). -/
def stripParensF (fuel : Nat) (s : List Char) : List Char :=
  match fuel with
  | 0 => s
  | fuel + 1 =>
    match s with
    | [] => []
    | '(' :: cs =>
      (match cs.dropWhile (fun c => c ≠ ')') with
       | ')' :: rest => stripParensF fuel rest
       | _ => '(' :: stripParensF fuel cs)
    | c :: cs => c :: stripParensF fuel cs

/-- Fueled for kernel evaluation; every recursive call of `stripParensF` is on
a strictly shorter list, so `s.length + 1` units of fuel always reach the base
case. -/
def stripParens (s : List Char) : List Char := stripParensF (s.length + 1) s

/-- `re.search(r'(\d{5})', addr)` (main.py line 580): the first five consecutive
digits anywhere in the string. -/
def firstFive : List Char → Option (List Char)
  | a :: b :: c :: d :: e :: r =>
    if isDigitCh a && isDigitCh b && isDigitCh c && isDigitCh d && isDigitCh e then
      some [a, b, c, d, e]
    else firstFive (b :: c :: d :: e :: r)
  | _ => none

/-- `addr.split(',')[0]`. -/
def beforeComma (s : List Char) : List Char := s.takeWhile (fun c => c ≠ ',')

/-- `addr.split(',', 1)[1]` (only called when a comma is present). -/
def afterComma (s : List Char) : List Char :=
  match s.dropWhile (fun c => c ≠ ',') with
  | _ :: r => r
  | [] => []

/-- `generate_variants` (main.py lines 555-583) as the ordered list the
generator yields: original (stripped); leading range collapsed; all residual
ranges collapsed; text after the first comma; parenthetical content stripped;
street + zip — each entry guarded exactly as in the source. -/
def generate_variants (addr : String) : List String :=
  let a := addr.data
  let firstOnly := subLeadingRange a
  let noRange := subAllRanges a
  (⟨stripWs a⟩ : String) ::
  ((if firstOnly ≠ a then [(⟨stripWs firstOnly⟩ : String)] else []) ++
   (if noRange ≠ a ∧ noRange ≠ firstOnly then [(⟨stripWs noRange⟩ : String)] else []) ++
   (if a.contains ',' then
      (let after := stripWs (afterComma a)
       if after ≠ [] then [(⟨after⟩ : String)] else [])
    else []) ++
   [(⟨stripWs (stripParens a)⟩ : String)] ++
   (match firstFive a with
    | some z => [(⟨stripWs (beforeComma a) ++ ", ".data ++ z⟩ : String)]
    | none => []))

/-- The variant loop of `geocode_address` (main.py lines 585-632): skip empty
variants, skip variants already attempted, otherwise query the service and
return on first success. -/
def geocodeLoop (svc : String → Option (ℚ × ℚ)) (attempted : List String) :
    List String → Option (ℚ × ℚ)
  | [] => none
  | v :: vs =>
    if v = "" then geocodeLoop svc attempted vs
    else if attempted.contains v then geocodeLoop svc attempted vs
    else
      match svc v with
      | some c => some c
      | none => geocodeLoop svc (v :: attempted) vs

/-- `geocode_address` (main.py lines 541-636) over an abstract service. -/
def geocode_address (svc : String → Option (ℚ × ℚ)) (address : String) :
    Option (ℚ × ℚ) :=
  geocodeLoop svc [] (generate_variants address)

/-! ### Distance filter pipeline (main.py lines 1265-1327)

`haversine_distance` (main.py 532-538) computes floating point trigonometry,
which has no exact shallow embedding; it is passed in as the abstract parameter
`hav` (lat₁ lon₁ lat₂ lon₂ ↦ km).  `round(dist, 2)` is likewise abstracted as
`round2`.  Every theorem about this pipeline therefore quantifies over both. -/

/-- `UMN_CAMPUS_LAT` (main.py line 35). -/
def UMN_CAMPUS_LAT : ℚ := 44.9731

/-- `UMN_CAMPUS_LON` (main.py line 36). -/
def UMN_CAMPUS_LON : ℚ := -93.2359

/-- `SEARCH_RADIUS_KM` (main.py line 37): the Python literal `10.0`. -/
def SEARCH_RADIUS_KM : ℚ := 10

/-- The pre-geocode duplicate-id skip (main.py lines 1279-1284); when
`existing_ids` is empty the Python code skips the comprehension, which filters
nothing, so filtering unconditionally is equivalent. -/
def prefilterExisting (existing_ids : List String) (units : List UnitListing) :
    List UnitListing :=
  units.filter (fun u => !(existing_ids.contains u.listing_id))

/-- Whether the address group of `a` gets geocoded: group nonempty address and
the first unit of the group (`address_units[0]`, the first unit in list order
with that `full_address`) missing `lat` or `lon` (main.py lines 1297-1301). -/
def needsGeocode (units : List UnitListing) (a : String) : Bool :=
  match units.find? (fun u => u.full_address = a) with
  | some w => w.lat.isNone || w.lon.isNone
  | none => false

/-- The geocoding pass (main.py lines 1290-1308): on success, every unit of the
address group receives the coordinates (the Python loop mutates the shared unit
objects; functionally, each unit of a geocoded group is updated). -/
def assignCoords (svc : String → Option (ℚ × ℚ)) (units : List UnitListing) :
    List UnitListing :=
  units.map (fun u =>
    if u.full_address ≠ "" ∧ needsGeocode units u.full_address then
      match geocode_address svc u.full_address with
      | some c => { u with lat := some c.1, lon := some c.2 }
      | none => u
    else u)

/-- `geocode_and_filter_units` (main.py lines 1265-1327): skip known ids, geocode
per address group, then keep exactly the units with resolved coordinates within
`SEARCH_RADIUS_KM` of campus, stamping the rounded distance on each kept unit.
(The code also stamps the distance on excluded units by mutation; those objects
are not used again by any caller, so only the returned list is modelled.) -/
def geocode_and_filter_units (hav : ℚ → ℚ → ℚ → ℚ → ℚ) (round2 : ℚ → ℚ)
    (svc : String → Option (ℚ × ℚ)) (existing_ids : List String)
    (units : List UnitListing) : List UnitListing :=
  let units2 := assignCoords svc (prefilterExisting existing_ids units)
  units2.filterMap (fun u =>
    match u.lat, u.lon with
    | some la, some lo =>
      let dist := hav la lo UMN_CAMPUS_LAT UMN_CAMPUS_LON
      if dist ≤ SEARCH_RADIUS_KM then
        some { u with dist_to_campus_km := some (round2 dist) }
      else none
    | _, _ => none)

/-- The rows written by `export_to_csv` (main.py lines 1330-1340): one row per
unit, in order; CSV cell encoding is modelled at record level.  `main`
(main.py line 1464) writes the unfiltered `all_units` through this to the ALL
session snapshot before any geocoding or filtering. -/
def export_to_csv_rows (units : List UnitListing) : List UnitListing := units

/-! ### Read-back coercions of `load_existing_listings` (main.py lines 350-407)

A persisted CSV row is an association list of string cells.  The loader
coerces float keys (when the cell is non-empty) with `float(...)`, int keys
with `int(float(...))`, and boolean keys unconditionally by the literal-table
rule.  Python `float()` on an arbitrary string is abstracted as
`pyFloat : String → Option ℚ` (`none` models the caught `ValueError`). -/

inductive CsvCell where
  | str (s : String)
  | num (q : Option ℚ)
  | intg (n : Option ℤ)
  | boolv (b : Option Bool)
deriving DecidableEq, Repr

/-- The float-coerced keys (main.py line 367). -/
def floatKeys : List String :=
  ["lat", "lon", "dist_to_campus_km", "beds", "baths", "rent_min", "rent_max"]

/-- The int-coerced keys (main.py line 373). -/
def intKeys : List String := ["sqft", "year_built", "num_units", "stories"]

/-- The boolean-coerced keys (main.py lines 379-383). -/
def boolKeys : List String :=
  ["is_per_bed", "is_shared_bedroom", "has_in_unit_laundry", "has_on_site_laundry",
   "has_dishwasher", "has_ac", "has_heat_included", "has_water_included",
   "has_internet_included", "is_furnished", "has_gym", "has_pool",
   "has_rooftop_or_clubroom", "has_parking_available", "has_garage",
   "pets_allowed", "is_student_branded"]

/-- Python `int(float(v))`: truncation toward zero. -/
def truncQ (q : ℚ) : ℤ := if 0 ≤ q then ⌊q⌋ else ⌈q⌉

/-- The per-cell coercion of `load_existing_listings` (main.py lines 366-390):
the three key lists are disjoint, so the three sequential loops act on each
cell independently.  Float/int cells are only converted when non-empty (a cell
left alone stays a string); boolean cells are always converted, with the
literal table `"True"/"true"/"1" ↦ True`, `"False"/"false"/"0" ↦ False`,
anything else `None`. -/
def coerceCell (pyFloat : String → Option ℚ) (k v : String) : CsvCell :=
  if k ∈ floatKeys then (if v ≠ "" then CsvCell.num (pyFloat v) else CsvCell.str v)
  else if k ∈ intKeys then
    (if v ≠ "" then CsvCell.intg ((pyFloat v).map truncQ) else CsvCell.str v)
  else if k ∈ boolKeys then
    CsvCell.boolv
      (if v ∈ (["True", "true", "1"] : List String) then some true
       else if v ∈ (["False", "false", "0"] : List String) then some false
       else none)
  else CsvCell.str v

/-- The row-level type coercion of `load_existing_listings`. -/
def load_existing_row (pyFloat : String → Option ℚ) (row : List (String × String)) :
    List (String × CsvCell) :=
  row.map (fun p => (p.1, coerceCell pyFloat p.1 p.2))

/-- The read-back mapping for boolean cells exactly as the specification words
it: `"True"`, `"true"` or `"1"` to true; `"False"`, `"false"` or `"0"` to
false; anything else (including the empty string) to `None`. -/
def boolReadBackSpec (v : String) : Option Bool :=
  if v = "True" ∨ v = "true" ∨ v = "1" then some true
  else if v = "False" ∨ v = "false" ∨ v = "0" then some false
  else none

/-! ### Lemmas about the merge engine -/

theorem merge_store_cons (n : UnitListing) (ns : List UnitListing)
    (m : List (String × UnitListing)) :
    merge_store (n :: ns) m =
      merge_store ns
        (if (lookupId n.listing_id m).isSome then m else m ++ [(n.listing_id, n)]) := rfl

theorem merge_store_nil (m : List (String × UnitListing)) : merge_store [] m = m := rfl

theorem lookupId_append_single (id k : String) (v : UnitListing)
    (m : List (String × UnitListing)) :
    lookupId id (m ++ [(k, v)]) =
      match lookupId id m with
      | some u => some u
      | none => if k = id then some v else none := by
  induction m with
  | nil => simp [lookupId]
  | cons p rest ih =>
    rcases p with ⟨k0, v0⟩
    by_cases hk : k0 = id
    · simp [lookupId, hk]
    · simp [lookupId, hk, ih]

theorem lookupId_none_iff (id : String) (m : List (String × UnitListing)) :
    lookupId id m = none ↔ id ∉ m.map Prod.fst := by
  induction m with
  | nil => simp [lookupId]
  | cons p rest ih =>
    rcases p with ⟨k0, v0⟩
    by_cases hk : k0 = id
    · simp [lookupId, hk]
    · simp [lookupId, hk, ih, Ne.symm hk]

theorem lookupId_isSome_iff (id : String) (m : List (String × UnitListing)) :
    (lookupId id m).isSome ↔ id ∈ m.map Prod.fst := by
  rcases h : lookupId id m with _ | u
  · simpa [h] using (lookupId_none_iff id m).mp h
  · simp only [Option.isSome_some, true_iff]
    by_contra hmem
    rw [← lookupId_none_iff] at hmem
    rw [h] at hmem
    exact Option.noConfusion hmem

theorem merge_store_lookup_mono (ns : List UnitListing) (id : String) (u : UnitListing) :
    ∀ m, lookupId id m = some u → lookupId id (merge_store ns m) = some u := by
  induction ns with
  | nil => intro m h; simpa [merge_store_nil] using h
  | cons n ns ih =>
    intro m h
    rw [merge_store_cons]
    by_cases hs : (lookupId n.listing_id m).isSome
    · simpa [hs] using ih m h
    · simp only [hs, Bool.false_eq_true, if_false]
      apply ih
      rw [lookupId_append_single, h]

theorem merge_store_keys (ns : List UnitListing) (id : String) :
    ∀ m, id ∈ (merge_store ns m).map Prod.fst ↔
      id ∈ m.map Prod.fst ∨ id ∈ ns.map UnitListing.listing_id := by
  induction ns with
  | nil => intro m; simp [merge_store_nil]
  | cons n ns ih =>
    intro m
    rw [merge_store_cons]
    by_cases hs : (lookupId n.listing_id m).isSome
    · have hn : n.listing_id ∈ m.map Prod.fst := (lookupId_isSome_iff _ m).mp hs
      simp only [hs, if_true, ih, List.map_cons, List.mem_cons]
      constructor
      · rintro (h | h)
        · exact Or.inl h
        · exact Or.inr (Or.inr h)
      · rintro (h | h | h)
        · exact Or.inl h
        · exact Or.inl (by rwa [h])
        · exact Or.inr h
    · simp only [hs, Bool.false_eq_true, if_false, ih, List.map_append, List.map_cons,
        List.map_nil, List.mem_append, List.mem_cons, List.not_mem_nil, or_false,
        List.mem_singleton]
      tauto

theorem merge_store_nodup (ns : List UnitListing) :
    ∀ m, (m.map Prod.fst).Nodup → ((merge_store ns m).map Prod.fst).Nodup := by
  induction ns with
  | nil => intro m h; simpa [merge_store_nil] using h
  | cons n ns ih =>
    intro m h
    rw [merge_store_cons]
    by_cases hs : (lookupId n.listing_id m).isSome
    · simpa [hs] using ih m h
    · simp only [hs, Bool.false_eq_true, if_false]
      apply ih
      have hnot : n.listing_id ∉ m.map Prod.fst := by
        rw [← lookupId_none_iff]
        rcases hl : lookupId n.listing_id m with _ | u
        · rfl
        · rw [hl] at hs; simp at hs
      simp only [List.map_append, List.map_cons, List.map_nil, List.nodup_append,
        List.nodup_cons, List.not_mem_nil, not_false_iff, List.nodup_nil, and_true, true_and]
      refine ⟨h, ?_⟩
      intro a ha
      simp only [List.mem_cons, List.not_mem_nil, or_false]
      intro hcontra
      exact hnot (hcontra ▸ ha)

theorem merge_store_consistent (ns : List UnitListing) :
    ∀ m, (∀ p ∈ m, (Prod.snd p).listing_id = p.1) →
      ∀ p ∈ merge_store ns m, (Prod.snd p).listing_id = p.1 := by
  induction ns with
  | nil => intro m h; simpa [merge_store_nil] using h
  | cons n ns ih =>
    intro m h
    rw [merge_store_cons]
    by_cases hs : (lookupId n.listing_id m).isSome
    · simpa [hs] using ih m h
    · simp only [hs, Bool.false_eq_true, if_false]
      apply ih
      intro p hp
      rcases List.mem_append.mp hp with h1 | h1
      · exact h p h1
      · rcases List.mem_singleton.mp h1 with rfl
        rfl

theorem map_snd_listing_id (m : List (String × UnitListing))
    (h : ∀ p ∈ m, (Prod.snd p).listing_id = p.1) :
    (m.map Prod.snd).map UnitListing.listing_id = m.map Prod.fst := by
  induction m with
  | nil => rfl
  | cons p rest ih =>
    simp only [List.map_cons, List.cons.injEq]
    constructor
    · exact h p (List.mem_cons_self p rest)
    · exact ih (fun q hq => h q (List.mem_cons_of_mem p hq))

theorem merge_store_isSome_of_mem_new (ns : List UnitListing) (u : UnitListing)
    (m : List (String × UnitListing)) (hu : u ∈ ns) :
    (lookupId u.listing_id (merge_store ns m)).isSome := by
  rw [lookupId_isSome_iff, merge_store_keys]
  exact Or.inr (List.mem_map_of_mem UnitListing.listing_id hu)

theorem merge_store_skip_all (ns : List UnitListing) :
    ∀ m, (∀ u ∈ ns, (lookupId u.listing_id m).isSome) → merge_store ns m = m := by
  induction ns with
  | nil => intro m _; rfl
  | cons n ns ih =>
    intro m h
    rw [merge_store_cons]
    have hn : (lookupId n.listing_id m).isSome := h n (List.mem_cons_self n ns)
    simp only [hn, if_true]
    exact ih m (fun u hu => h u (List.mem_cons_of_mem n hu))

/-- C1: merging a batch of new units into a persisted store keyed by
`listing_id` yields a collection in which every id present in either source
appears exactly once, and for every id already persisted the surviving record
is the persisted one (the new record is discarded). -/
theorem merge_and_dedupe_units_spec (new_units : List UnitListing)
    (existing : List (String × UnitListing))
    (hnd : (existing.map Prod.fst).Nodup)
    (hc : ∀ p ∈ existing, (Prod.snd p).listing_id = p.1) :
    (∀ id, id ∈ (merge_and_dedupe_units new_units existing).map UnitListing.listing_id ↔
      (id ∈ existing.map Prod.fst ∨ id ∈ new_units.map UnitListing.listing_id)) ∧
    (∀ id, (id ∈ existing.map Prod.fst ∨ id ∈ new_units.map UnitListing.listing_id) →
      ((merge_and_dedupe_units new_units existing).map UnitListing.listing_id).count id = 1) ∧
    (∀ id, id ∈ existing.map Prod.fst →
      lookupId id (merge_store new_units existing) = lookupId id existing) := by
  have hcons := merge_store_consistent new_units existing hc
  have hkeys : (merge_and_dedupe_units new_units existing).map UnitListing.listing_id =
      (merge_store new_units existing).map Prod.fst := by
    rw [merge_and_dedupe_units]
    exact map_snd_listing_id _ hcons
  refine ⟨?_, ?_, ?_⟩
  · intro id
    rw [hkeys]
    exact merge_store_keys new_units id existing
  · intro id hmem
    rw [hkeys]
    exact List.count_eq_one_of_mem (merge_store_nodup new_units existing hnd)
      ((merge_store_keys new_units id existing).mpr hmem)
  · intro id hmem
    rcases hl : lookupId id existing with _ | u
    · exact absurd ((lookupId_none_iff id existing).mp hl) (not_not_intro hmem)
    · exact merge_store_lookup_mono new_units id u existing hl

/-- C2: merging the same batch into the same store twice yields a store
identical to merging it once — every id already present is a no-op. -/
theorem merge_and_dedupe_units_idempotent (new_units : List UnitListing)
    (existing : List (String × UnitListing)) :
    merge_store new_units (merge_store new_units existing) =
        merge_store new_units existing ∧
    merge_and_dedupe_units new_units (merge_store new_units existing) =
        merge_and_dedupe_units new_units existing := by
  have hstore : merge_store new_units (merge_store new_units existing) =
      merge_store new_units existing :=
    merge_store_skip_all new_units _
      (fun u hu => merge_store_isSome_of_mem_new new_units u existing hu)
  exact ⟨hstore, by rw [merge_and_dedupe_units, hstore, merge_and_dedupe_units]⟩

/-- Concrete persisted record for the merge witness. -/
def wExist : UnitListing :=
  { listing_id := "a", building_name := "Old", full_address := "1 Old St", rent_min := some 1000 }

/-- Concrete new scrape of the already-known id. -/
def wNewA : UnitListing :=
  { listing_id := "a", building_name := "New", full_address := "1 Old St", rent_min := some 2000 }

/-- Concrete new record with a fresh id. -/
def wNewB : UnitListing :=
  { listing_id := "b", building_name := "New", full_address := "2 New St" }

theorem merge_and_dedupe_units_spec_witness :
    ((merge_and_dedupe_units [wNewA, wNewB] [("a", wExist)]).map
        UnitListing.listing_id).count "a" = 1 ∧
    lookupId "a" (merge_store [wNewA, wNewB] [("a", wExist)]) =
      lookupId "a" [("a", wExist)] := by
  have h := merge_and_dedupe_units_spec [wNewA, wNewB] [("a", wExist)]
    (by decide) (by decide)
  exact ⟨h.2.1 "a" (Or.inl (by decide)), h.2.2 "a" (by decide)⟩

/-- C3: the stated boundary cases of the price parser, with empty context. -/
theorem parse_price_text_boundary_cases :
    (parse_price_text "$1,200" "").rent_min = some 1200 ∧
    (parse_price_text "$1,200" "").rent_max = some 1200 ∧
    (parse_price_text "$1,200" "").price_type = "per_unit" ∧
    (parse_price_text "$900 - $1,300" "").rent_min = some 900 ∧
    (parse_price_text "$900 - $1,300" "").rent_max = some 1300 ∧
    (parse_price_text "$900 - $1,300" "").price_type = "range" ∧
    (parse_price_text "From $800" "").rent_min = some 800 ∧
    (parse_price_text "From $800" "").rent_max = some 800 ∧
    (parse_price_text "From $800" "").price_type = "from_price" ∧
    (parse_price_text "$650/bed" "").is_per_bed = some true ∧
    parse_price_text "" "" =
      { rent_min := none, rent_max := none, price_type := "unknown",
        is_per_bed := none, is_shared_bedroom := none } := by
  decide

/-- C4 counterexample: non-empty pricing text whose fragment contains no
parseable number leaves `is_per_bed` and `is_shared_bedroom` as `None`, so
"non-empty input implies boolean flags" fails on the code. -/
theorem parse_price_text_nonempty_flags_cex :
    ¬("call" = "") ∧
    (parse_price_text "call" "").is_per_bed = none ∧
    (parse_price_text "call" "").is_shared_bedroom = none := by
  decide

theorem extractMoney_nil : extractMoney [] = [] := rfl

/-- C4 (amended): once at least one currency number was extracted from the
price fragment, both flags are booleans, never `None`, and each carries
exactly the outcome of its pattern scan over the lowered combined text: `True`
when a pattern matched, `False` (the default) when none did. -/
theorem parse_price_text_flags_set_when_number_found (price_text full_text : String)
    (h : extractMoney price_text.data ≠ []) :
    (parse_price_text price_text full_text).is_per_bed =
      some (perBedPats.any (fun p => reSearch p
        (lowerStr ((price_text ++ " " ++ full_text).data)))) ∧
    (parse_price_text price_text full_text).is_shared_bedroom =
      some (sharedBedroomPats.any (fun p => reSearch p
        (lowerStr ((price_text ++ " " ++ full_text).data)))) := by
  have hne : price_text ≠ "" := by
    intro he
    apply h
    rw [he]
    exact extractMoney_nil
  rcases hm : extractMoney price_text.data with _ | ⟨n0, rest⟩
  · exact absurd hm h
  · simp only [parse_price_text, if_neg hne, hm]
    by_cases hA : perBedPats.any (fun p => reSearch p
      (lowerStr ((price_text ++ " " ++ full_text).data)))
    all_goals by_cases hB : sharedBedroomPats.any (fun p => reSearch p
      (lowerStr ((price_text ++ " " ++ full_text).data)))
    all_goals simp only [hA, hB, if_true, Bool.false_eq_true, if_false]
    all_goals constructor
    all_goals split
    all_goals try rfl
    all_goals split
    all_goals rfl

theorem parse_price_text_flags_set_witness :
    extractMoney ("$1,200" : String).data ≠ [] ∧
    (parse_price_text "$1,200" "").is_per_bed =
      some (perBedPats.any (fun p => reSearch p
        (lowerStr (("$1,200" ++ " " ++ "").data)))) ∧
    (parse_price_text "$1,200" "").is_shared_bedroom =
      some (sharedBedroomPats.any (fun p => reSearch p
        (lowerStr (("$1,200" ++ " " ++ "").data)))) := by
  refine ⟨by decide, ?_⟩
  exact parse_price_text_flags_set_when_number_found "$1,200" "" (by decide)

/-! ### C5 — geocoding variant order -/

theorem geocodeLoop_eq_findSome (svc : String → Option (ℚ × ℚ)) (vs : List String) :
    ∀ attempted, (∀ v ∈ attempted, svc v = none) →
      geocodeLoop svc attempted vs =
        vs.findSome? (fun v => if v = "" then none else svc v) := by
  induction vs with
  | nil => intro attempted _; rfl
  | cons v vs ih =>
    intro attempted hinv
    rw [geocodeLoop, List.findSome?_cons]
    by_cases hv : v = ""
    · simp only [hv, if_true, if_pos]
      exact ih attempted hinv
    · simp only [hv, if_neg, if_false]
      by_cases hat : attempted.contains v
      · have hnone : svc v = none := hinv v (by simpa using hat)
        simp only [hat, if_true, hnone]
        exact ih attempted hinv
      · simp only [hat, Bool.false_eq_true, if_false]
        rcases hs : svc v with _ | c
        · simp only []
          apply ih
          intro w hw
          rcases List.mem_cons.mp hw with rfl | hw2
          · exact hs
          · exact hinv w hw2
        · rfl

/-- The geocoding stub of the spec scenario: fails on the literal range
address, succeeds on the collapsed-range variant. -/
def c5stub : String → Option (ℚ × ℚ) :=
  fun s => if s = "3413 53rd Ave, Minneapolis, MN" then some (44, -93) else none

/-- C5: `geocode_address` tries the generated variants in order, attempting
each at most once, and returns the first non-empty service result (`none` when
all are exhausted); on the range address the generator yields exactly the
documented order, and with a stub failing on the literal string the
collapsed-range variant's result is returned. -/
theorem geocode_address_variant_order :
    (∀ (svc : String → Option (ℚ × ℚ)) (addr : String),
      geocode_address svc addr =
        (generate_variants addr).findSome? (fun v => if v = "" then none else svc v)) ∧
    generate_variants "3413-3433 53rd Ave, Minneapolis, MN" =
      ["3413-3433 53rd Ave, Minneapolis, MN", "3413 53rd Ave, Minneapolis, MN",
       "Minneapolis, MN", "3413-3433 53rd Ave, Minneapolis, MN"] ∧
    geocode_address c5stub "3413-3433 53rd Ave, Minneapolis, MN" = some (44, -93) := by
  refine ⟨?_, by decide, by decide⟩
  intro svc addr
  exact geocodeLoop_eq_findSome svc (generate_variants addr) [] (by simp)

/-! ### C6/C7 — the distance filter -/

/-- The record stamped onto a kept unit by the filter loop. -/
def stampDist (hav : ℚ → ℚ → ℚ → ℚ → ℚ) (round2 : ℚ → ℚ) (u : UnitListing)
    (la lo : ℚ) : UnitListing :=
  { u with dist_to_campus_km := some (round2 (hav la lo UMN_CAMPUS_LAT UMN_CAMPUS_LON)) }

/-- Membership characterisation of `geocode_and_filter_units`: the output
consists exactly of the distance-stamped post-geocoding units with resolved
coordinates within the radius. -/
theorem mem_geocode_and_filter (hav : ℚ → ℚ → ℚ → ℚ → ℚ) (round2 : ℚ → ℚ)
    (svc : String → Option (ℚ × ℚ)) (existing_ids : List String)
    (units : List UnitListing) (v : UnitListing) :
    v ∈ geocode_and_filter_units hav round2 svc existing_ids units ↔
      ∃ u ∈ assignCoords svc (prefilterExisting existing_ids units), ∃ la lo,
        u.lat = some la ∧ u.lon = some lo ∧
        hav la lo UMN_CAMPUS_LAT UMN_CAMPUS_LON ≤ SEARCH_RADIUS_KM ∧
        v = stampDist hav round2 u la lo := by
  simp only [geocode_and_filter_units, List.mem_filterMap]
  constructor
  · rintro ⟨u, hu, hf⟩
    refine ⟨u, hu, ?_⟩
    rcases hla : u.lat with _ | la
    · rw [hla] at hf; simp at hf
    rcases hlo : u.lon with _ | lo
    · rw [hla, hlo] at hf; simp at hf
    rw [hla, hlo] at hf
    simp only [] at hf
    by_cases hd : hav la lo UMN_CAMPUS_LAT UMN_CAMPUS_LON ≤ SEARCH_RADIUS_KM
    · rw [if_pos hd] at hf
      refine ⟨la, lo, rfl, rfl, hd, ?_⟩
      have hv := Option.some.inj hf
      rw [← hv, stampDist, ← hla, ← hlo]
    · rw [if_neg hd] at hf
      exact absurd hf (by simp)
  · rintro ⟨u, hu, la, lo, hla, hlo, hd, rfl⟩
    refine ⟨u, hu, ?_⟩
    rw [hla, hlo]
    simp only [if_pos hd]
    rw [stampDist, ← hla, ← hlo]

theorem stampDist_lat (hav : ℚ → ℚ → ℚ → ℚ → ℚ) (round2 : ℚ → ℚ)
    (u : UnitListing) (la lo : ℚ) : (stampDist hav round2 u la lo).lat = u.lat := rfl

theorem stampDist_lon (hav : ℚ → ℚ → ℚ → ℚ → ℚ) (round2 : ℚ → ℚ)
    (u : UnitListing) (la lo : ℚ) : (stampDist hav round2 u la lo).lon = u.lon := rfl

theorem stampDist_dist (hav : ℚ → ℚ → ℚ → ℚ → ℚ) (round2 : ℚ → ℚ)
    (u : UnitListing) (la lo : ℚ) :
    (stampDist hav round2 u la lo).dist_to_campus_km =
      some (round2 (hav la lo UMN_CAMPUS_LAT UMN_CAMPUS_LON)) := rfl

/-- C6: after duplicate-id pre-filtering, a unit appears in the filtered output
iff its resolved coordinates give a haversine distance to the campus reference
point of at most the radius; a unit with unresolved coordinates never appears
(every output record has both coordinates set).  `hav` abstracts the floating
point `haversine_distance`, `round2` the `round(_, 2)` stamp. -/
theorem geocode_and_filter_units_radius_iff (hav : ℚ → ℚ → ℚ → ℚ → ℚ)
    (round2 : ℚ → ℚ) (svc : String → Option (ℚ × ℚ)) (existing_ids : List String)
    (units : List UnitListing) :
    (∀ v, v ∈ geocode_and_filter_units hav round2 svc existing_ids units ↔
      ∃ u ∈ assignCoords svc (prefilterExisting existing_ids units), ∃ la lo,
        u.lat = some la ∧ u.lon = some lo ∧
        hav la lo UMN_CAMPUS_LAT UMN_CAMPUS_LON ≤ SEARCH_RADIUS_KM ∧
        v = stampDist hav round2 u la lo) ∧
    (∀ w ∈ geocode_and_filter_units hav round2 svc existing_ids units,
      w.lat.isSome ∧ w.lon.isSome) := by
  refine ⟨mem_geocode_and_filter hav round2 svc existing_ids units, ?_⟩
  intro w hw
  rcases (mem_geocode_and_filter hav round2 svc existing_ids units w).mp hw with
    ⟨u, _, la, lo, hla, hlo, _, rfl⟩
  rw [stampDist_lat, stampDist_lon, hla, hlo]
  exact ⟨rfl, rfl⟩

/-- Concrete unit with resolved coordinates for the filter witnesses. -/
def c6unit : UnitListing :=
  { listing_id := "x-1.0bed", building_name := "X", full_address := "1 X St, Minneapolis, MN",
    lat := some 44, lon := some (-93), rent_min := some 1000 }

theorem geocode_and_filter_units_radius_iff_witness :
    (stampDist (fun _ _ _ _ => 1) (fun q => q) c6unit 44 (-93)).lat.isSome ∧
    (stampDist (fun _ _ _ _ => 1) (fun q => q) c6unit 44 (-93)).lon.isSome := by
  exact (geocode_and_filter_units_radius_iff (fun _ _ _ _ => 1) (fun q => q)
    (fun _ => none) [] [c6unit]).2
    (stampDist (fun _ _ _ _ => 1) (fun q => q) c6unit 44 (-93)) (by decide)

/-- C7 (amended): every record in the session-filtered output of
`geocode_and_filter_units` has `lat`, `lon` and `dist_to_campus_km` all set —
the coordinates and the distance are stamped together. -/
theorem geocode_and_filter_units_latlon_has_dist (hav : ℚ → ℚ → ℚ → ℚ → ℚ)
    (round2 : ℚ → ℚ) (svc : String → Option (ℚ × ℚ)) (existing_ids : List String)
    (units : List UnitListing) (v : UnitListing)
    (hv : v ∈ geocode_and_filter_units hav round2 svc existing_ids units) :
    v.lat.isSome ∧ v.lon.isSome ∧ v.dist_to_campus_km.isSome := by
  rcases (mem_geocode_and_filter hav round2 svc existing_ids units v).mp hv with
    ⟨u, _, la, lo, hla, hlo, _, rfl⟩
  rw [stampDist_lat, stampDist_lon, stampDist_dist, hla, hlo]
  exact ⟨rfl, rfl, rfl⟩

theorem geocode_and_filter_units_latlon_has_dist_witness :
    (stampDist (fun _ _ _ _ => 1) (fun q => q) c6unit 44 (-93)).lat.isSome ∧
    (stampDist (fun _ _ _ _ => 1) (fun q => q) c6unit 44 (-93)).lon.isSome ∧
    (stampDist (fun _ _ _ _ => 1) (fun q => q) c6unit 44 (-93)).dist_to_campus_km.isSome :=
  geocode_and_filter_units_latlon_has_dist (fun _ _ _ _ => 1) (fun q => q)
    (fun _ => none) [] [c6unit]
    (stampDist (fun _ _ _ _ => 1) (fun q => q) c6unit 44 (-93)) (by decide)

/-- Building data whose page supplied coordinates (JSON-LD / map attributes,
main.py lines 1059-1087), as read by `parse_unit_row`. -/
def c7bd : BuildingData :=
  { source_url := "https://www.apartments.com/the-example-minneapolis-mn/abc123/",
    building_name := "The Example", full_address := "100 Example St, Minneapolis, MN",
    lat := some 44, lon := some (-93) }

def c7row : String := "1 Bed 1 Bath $1,000 700 Sq Ft"

/-- The unit `main` collects into `all_units` and exports unfiltered. -/
def c7unit : UnitListing := (parse_unit_row c7row c7bd "2025-01-01T00:00:00").getD default

/-- C7 counterexample: `main` (main.py line 1464) writes the unfiltered
`all_units` to the ALL session snapshot before geocoding; a unit whose page
supplied coordinates then has `lat`/`lon` set but `dist_to_campus_km` still
`None` in that output dataset. -/
theorem all_snapshot_latlon_without_dist_cex :
    parse_unit_row c7row c7bd "2025-01-01T00:00:00" = some c7unit ∧
    c7unit.lat.isSome ∧ c7unit.lon.isSome ∧ c7unit.dist_to_campus_km = none ∧
    c7unit ∈ export_to_csv_rows [c7unit] := by
  decide

/-! ### C8 — the unit sampler -/

theorem foldlMax_mem (rest : List UnitListing) :
    ∀ u : UnitListing,
      rest.foldl (fun best v => if sqftKeyGt v best then v else best) u = u ∨
      rest.foldl (fun best v => if sqftKeyGt v best then v else best) u ∈ rest := by
  induction rest with
  | nil => intro u; exact Or.inl rfl
  | cons v vs ih =>
    intro u
    simp only [List.foldl_cons]
    by_cases hv : sqftKeyGt v u
    · simp only [hv, if_true]
      rcases ih v with h | h
      · refine Or.inr ?_
        rw [h]
        exact List.mem_cons_self v vs
      · exact Or.inr (List.mem_cons_of_mem v h)
    · simp only [hv, Bool.false_eq_true, if_false]
      rcases ih u with h | h
      · exact Or.inl h
      · exact Or.inr (List.mem_cons_of_mem v h)

theorem firstMaxBy_mem (l : List UnitListing) (u : UnitListing)
    (h : firstMaxBy l = some u) : u ∈ l := by
  cases l with
  | nil => exact absurd h (by simp [firstMaxBy])
  | cons a as =>
    rw [firstMaxBy] at h
    have hu := Option.some.inj h
    rcases foldlMax_mem as a with h2 | h2
    · rw [← hu, h2]; exact List.mem_cons_self a as
    · rw [← hu]; exact List.mem_cons_of_mem a h2

theorem fillLoop_mem (l : List UnitListing) :
    ∀ sel x, x ∈ fillLoop sel l → x ∈ sel ∨ x ∈ l := by
  induction l with
  | nil => intro sel x hx; exact Or.inl hx
  | cons u rest ih =>
    intro sel x hx
    rw [fillLoop] at hx
    by_cases hc : sel.contains u
    · simp only [hc, if_true] at hx
      rcases ih sel x hx with h | h
      · exact Or.inl h
      · exact Or.inr (List.mem_cons_of_mem u h)
    · simp only [hc, Bool.false_eq_true, if_false] at hx
      by_cases hl : 2 ≤ (sel ++ [u]).length
      · simp only [hl, if_true] at hx
        rcases List.mem_append.mp hx with h | h
        · exact Or.inl h
        · exact Or.inr (List.mem_cons.mpr (Or.inl (List.mem_singleton.mp h)))
      · simp only [hl, if_false] at hx
        rcases ih (sel ++ [u]) x hx with h | h
        · rcases List.mem_append.mp h with h2 | h2
          · exact Or.inl h2
          · exact Or.inr (List.mem_cons.mpr (Or.inl (List.mem_singleton.mp h2)))
        · exact Or.inr (List.mem_cons_of_mem u h)

theorem selectedOf_rent (units : List UnitListing) (u : UnitListing)
    (h : u ∈ selectedOf units) : u.rent_min.isSome := by
  rw [selectedOf] at h
  rcases List.mem_append.mp h with h1 | h1
  · rcases hm : firstMaxBy (units.filter (fun u => u.beds == some 1 && u.rent_min.isSome)) with
      _ | w
    · rw [hm] at h1; simp at h1
    · rw [hm] at h1
      rcases List.mem_singleton.mp h1 with rfl
      have := List.of_mem_filter (firstMaxBy_mem _ _ hm)
      exact (Bool.and_elim_right this)
  · rcases hm : firstMaxBy (units.filter (fun u => u.beds == some 2 && u.rent_min.isSome)) with
      _ | w
    · rw [hm] at h1; simp at h1
    · rw [hm] at h1
      rcases List.mem_singleton.mp h1 with rfl
      have := List.of_mem_filter (firstMaxBy_mem _ _ hm)
      exact (Bool.and_elim_right this)

theorem sample_units_rent (units : List UnitListing) (u : UnitListing)
    (h : u ∈ sample_units units) : u.rent_min.isSome := by
  cases units with
  | nil => simp [sample_units] at h
  | cons a as =>
    have hcore : u ∈ sampleUnitsCore (a :: as) := h
    rw [sampleUnitsCore] at hcore
    have hmem := List.take_subset 2 _ hcore
    set sel := selectedOf (a :: as) with hsel
    by_cases hlen : sel.length < 2
    · rw [if_pos hlen] at hmem
      rcases fillLoop_mem _ sel u hmem with h1 | h1
      · exact selectedOf_rent _ u h1
      · have hperm := List.perm_insertionSort (fun a b => fillKeyLe a b = true)
          ((a :: as).filter (fun u => !(sel.contains u) && u.rent_min.isSome))
        have h2 := hperm.mem_iff.mp h1
        have := List.of_mem_filter h2
        exact (Bool.and_elim_right this)
    · rw [if_neg hlen] at hmem
      exact selectedOf_rent _ u hmem

/-- Demo building for the sampler scenario: 1-, 2- and 3-bed units, each with
known rent and sqft (two 1-beds, to exercise the largest-sqft pick). -/
def demo1a : UnitListing :=
  { listing_id := "d-1a", building_name := "D", full_address := "1 D St",
    beds := some 1, rent_min := some 900, sqft := some 500 }

def demo1b : UnitListing :=
  { listing_id := "d-1b", building_name := "D", full_address := "1 D St",
    beds := some 1, rent_min := some 950, sqft := some 700 }

def demo2 : UnitListing :=
  { listing_id := "d-2", building_name := "D", full_address := "1 D St",
    beds := some 2, rent_min := some 1400, sqft := some 900 }

def demo3 : UnitListing :=
  { listing_id := "d-3", building_name := "D", full_address := "1 D St",
    beds := some 3, rent_min := some 1800, sqft := some 1200 }

/-- C8: the sampler returns at most 2 units, the empty list on empty input, and
never a unit lacking a parsed rent; on a building with 1-, 2- and 3-bed units
that all have rent and sqft, it returns exactly the largest-sqft 1-bed and the
largest-sqft 2-bed. -/
theorem sample_units_spec :
    (∀ units : List UnitListing, (sample_units units).length ≤ 2) ∧
    sample_units [] = [] ∧
    (∀ (units : List UnitListing) (u : UnitListing),
      u ∈ sample_units units → u.rent_min ≠ none) ∧
    sample_units [demo1a, demo1b, demo2, demo3] = [demo1b, demo2] := by
  refine ⟨?_, rfl, ?_, by decide⟩
  · intro units
    cases units with
    | nil => simp [sample_units]
    | cons a as =>
      show (sampleUnitsCore (a :: as)).length ≤ 2
      rw [sampleUnitsCore]
      simp only [List.length_take]
      omega
  · intro units u hu
    have := sample_units_rent units u hu
    simp only [Option.isSome_iff_ne_none] at this
    exact this

theorem sample_units_spec_witness : demo1b.rent_min ≠ none :=
  sample_units_spec.2.2.1 [demo1a, demo1b, demo2, demo3] demo1b (by decide)

/-! ### C9 — boolean read-back -/

theorem boolCell_eq (v : String) :
    (if v ∈ (["True", "true", "1"] : List String) then some true
     else if v ∈ (["False", "false", "0"] : List String) then some false
     else none) = boolReadBackSpec v := by
  simp [boolReadBackSpec, List.mem_cons]

/-- C9: on read-back of a persisted row, every boolean field's cell maps
`"True"/"true"/"1"` to true, `"False"/"false"/"0"` to false, and anything else
(including the empty string) to `None`. -/
theorem load_existing_listings_bool_readback (pyFloat : String → Option ℚ)
    (row : List (String × String)) (k v : String)
    (hk : k ∈ boolKeys) (hv : (k, v) ∈ row) :
    (k, CsvCell.boolv (boolReadBackSpec v)) ∈ load_existing_row pyFloat row := by
  have hdisj : ∀ x ∈ boolKeys, x ∉ floatKeys ∧ x ∉ intKeys := by decide
  have hcell : coerceCell pyFloat k v = CsvCell.boolv (boolReadBackSpec v) := by
    rw [coerceCell, if_neg (hdisj k hk).1, if_neg (hdisj k hk).2, if_pos hk]
    rw [boolCell_eq]
  rw [load_existing_row]
  exact List.mem_map.mpr ⟨(k, v), hv, by rw [hcell]⟩

theorem load_existing_listings_bool_readback_witness :
    ("is_per_bed", CsvCell.boolv (boolReadBackSpec "1")) ∈
      load_existing_row (fun _ => none) [("listing_id", "x"), ("is_per_bed", "1")] :=
  load_existing_listings_bool_readback (fun _ => none)
    [("listing_id", "x"), ("is_per_bed", "1")] "is_per_bed" "1" (by decide) (by decide)

/-! ### C10 — listing_id construction and collisions -/

def c10bd : BuildingData :=
  { source_url := "https://www.apartments.com/the-example-minneapolis-mn/abc123/",
    building_name := "The Example", full_address := "100 Example St, Minneapolis, MN" }

/-- A studio row: `beds == 0.0` is falsy, so the id renders "0". -/
def c10studio : UnitListing :=
  (parse_unit_row "Studio 1 Bath $800 400 Sq Ft" c10bd "t").getD default

/-- A row whose bed text fails to parse: `beds is None` also renders "0". -/
def c10nobed : UnitListing :=
  (parse_unit_row "1 Bath $900 500 Sq Ft" c10bd "t").getD default

def c10twoA : UnitListing :=
  (parse_unit_row "2 Bed 1 Bath $1,200 800 Sq Ft" c10bd "t").getD default

def c10twoB : UnitListing :=
  (parse_unit_row "2 Bed 2 Bath $1,500 1,000 Sq Ft" c10bd "t").getD default

/-- C10: the listing id is the source URL's penultimate path segment plus the
rendered bed count plus "bed"; a studio and an unparsed-bed unit both render
"0" and collide, as do any two floorplans with the same bed count, and the
merge keeps only the first record of a colliding pair. -/
theorem listing_id_collision :
    (parse_unit_row "Studio 1 Bath $800 400 Sq Ft" c10bd "t").isSome ∧
    (parse_unit_row "1 Bath $900 500 Sq Ft" c10bd "t").isSome ∧
    c10studio.beds = some 0 ∧ c10nobed.beds = none ∧
    c10studio.listing_id = "abc123-0bed" ∧ c10nobed.listing_id = "abc123-0bed" ∧
    c10studio ≠ c10nobed ∧
    merge_and_dedupe_units [c10studio, c10nobed] [] = [c10studio] ∧
    c10twoA.listing_id = "abc123-2.0bed" ∧ c10twoB.listing_id = "abc123-2.0bed" ∧
    c10twoA ≠ c10twoB ∧
    merge_and_dedupe_units [c10twoA, c10twoB] [] = [c10twoA] := by
  decide
